import Mathlib

/-!
Verification development for the orbit-transfer repository.

The definitions below are shallow embeddings of the code in
`src/services/webrtcService.ts`, `src/App.tsx`, `src/services/geminiService.ts`
and `src/unnamed/part_000`.  Machine numbers are modelled as `Nat`; byte
buffers are modelled by their lengths (the sender and receiver only ever look
at `byteLength`); the asynchronous event handlers of the service are modelled
as explicit step functions over a state record, driven by event lists.
-/

namespace OrbitTransfer

/-- Chunk size from `webrtcService.ts` line 2: `const CHUNK_SIZE = 16384`. -/
def CHUNK_SIZE : Nat := 16384

/-- High-water mark from `processChunks`:
`this.dataChannel.bufferedAmount > 2 * 1024 * 1024`. -/
def HIGH_WATER_MARK : Nat := 2 * 1024 * 1024

/-- Low-water mark: the code never assigns `bufferedAmountLowThreshold`, so the
`bufferedamountlow` event fires at the platform default threshold 0. -/
def BUFFERED_AMOUNT_LOW_THRESHOLD : Nat := 0

/-! ## Chunk lengths emitted by the uninterrupted send loop

`processChunks`/`sendChunk` (webrtcService.ts lines 194-240) repeatedly read
`file.slice(offset, offset + CHUNK_SIZE)` (whose length is
`min CHUNK_SIZE (size - offset)` because `slice` clamps), send the buffer,
advance `offset` by the buffer length, and continue while `offset < size`.
Note the loop is do-while shaped: the chunk read first is always sent, and only
afterwards is `offset < size` tested, so a 0-byte file still sends one empty
chunk.  `processChunksGo` is that loop with a fuel argument for structural
recursion; `size + 1` fuel always suffices because every iteration that recurses
advances `offset` by at least one byte. -/

def processChunksGo : Nat → Nat → Nat → List Nat
  | 0, _, _ => []
  | fuel + 1, size, offset =>
      if offset + min CHUNK_SIZE (size - offset) < size then
        min CHUNK_SIZE (size - offset)
          :: processChunksGo fuel size (offset + min CHUNK_SIZE (size - offset))
      else [min CHUNK_SIZE (size - offset)]

/-- List of chunk byte-lengths the sender emits for a file of size `size`
starting at `offset`, in emission order. -/
def processChunksLens (size offset : Nat) : List Nat :=
  processChunksGo (size + 1) size offset

/-- Length of the final chunk for `r` remaining bytes (`r` positive):
`r % CHUNK_SIZE`, or a full chunk when the remainder is zero. -/
def lastLen (r : Nat) : Nat :=
  if r % CHUNK_SIZE = 0 then CHUNK_SIZE else r % CHUNK_SIZE

theorem processChunksGo_eq (fuel size offset : Nat)
    (hf : size - offset < fuel) (h : offset < size) :
    processChunksGo fuel size offset =
      List.replicate ((size - offset - 1) / CHUNK_SIZE) CHUNK_SIZE
        ++ [lastLen (size - offset)] := by
  induction fuel generalizing offset with
  | zero => omega
  | succ fuel ih =>
    have hC : CHUNK_SIZE = 16384 := rfl
    rw [processChunksGo]
    by_cases hlt : offset + min CHUNK_SIZE (size - offset) < size
    · have hmin : min CHUNK_SIZE (size - offset) = CHUNK_SIZE := by omega
      rw [if_pos hlt, hmin, ih (offset + CHUNK_SIZE) (by omega) (by omega)]
      have h1 : (size - offset - 1) / CHUNK_SIZE =
          (size - (offset + CHUNK_SIZE) - 1) / CHUNK_SIZE + 1 := by
        simp only [hC]; omega
      have hm : (size - offset) % CHUNK_SIZE = (size - (offset + CHUNK_SIZE)) % CHUNK_SIZE := by
        simp only [hC]; omega
      have h2 : lastLen (size - offset) = lastLen (size - (offset + CHUNK_SIZE)) := by
        unfold lastLen; rw [hm]
      rw [h1, h2, List.replicate_succ, List.cons_append]
    · have hmin : min CHUNK_SIZE (size - offset) = size - offset := by omega
      rw [if_neg hlt, hmin]
      have h1 : (size - offset - 1) / CHUNK_SIZE = 0 := by
        apply Nat.div_eq_of_lt; omega
      have h2 : lastLen (size - offset) = size - offset := by
        unfold lastLen
        split_ifs with h0
        · simp only [hC] at h0 ⊢; omega
        · simp only [hC] at h0 ⊢; omega
      rw [h1, h2, List.replicate_zero, List.nil_append]

/-- Closed form of the emitted chunk lengths for a nonempty file suffix. -/
theorem processChunksLens_eq (size offset : Nat) (h : offset < size) :
    processChunksLens size offset =
      List.replicate ((size - offset - 1) / CHUNK_SIZE) CHUNK_SIZE
        ++ [lastLen (size - offset)] :=
  processChunksGo_eq (size + 1) size offset (by omega) h

theorem processChunksLens_sum (S : Nat) (hS : 1 ≤ S) :
    (processChunksLens S 0).sum = S := by
  rw [processChunksLens_eq S 0 hS]
  simp only [List.sum_append, List.sum_replicate, smul_eq_mul, List.sum_cons,
    List.sum_nil, Nat.sub_zero]
  unfold lastLen
  simp only [CHUNK_SIZE]
  split_ifs with h0 <;> omega

theorem processChunksLens_length (S : Nat) (hS : 1 ≤ S) :
    (processChunksLens S 0).length = (S + CHUNK_SIZE - 1) / CHUNK_SIZE := by
  rw [processChunksLens_eq S 0 hS]
  simp only [List.length_append, List.length_replicate, List.length_cons,
    List.length_nil, Nat.sub_zero, CHUNK_SIZE]
  omega

theorem processChunksLens_pos (S : Nat) (hS : 1 ≤ S) :
    ∀ c ∈ processChunksLens S 0, 1 ≤ c := by
  rw [processChunksLens_eq S 0 hS]
  intro c hc
  have hC : CHUNK_SIZE = 16384 := rfl
  rcases List.mem_append.1 hc with hrep | hlast
  · have := List.eq_of_mem_replicate hrep
    omega
  · simp only [List.mem_singleton] at hlast
    subst hlast
    unfold lastLen
    split_ifs with h0
    · omega
    · simp only [CHUNK_SIZE] at h0 ⊢
      omega

/-- CLAIM C3 (counterexample): for a 0-byte file, the do-while shape of the
send loop emits one empty chunk, whereas the claim predicts
`ceil(0 / CHUNK_SIZE) = 0` chunks. -/
theorem zeroByteFile_emits_one_chunk :
    processChunksLens 0 0 = [0] ∧
    (0 + CHUNK_SIZE - 1) / CHUNK_SIZE = 0 := by
  constructor
  · rfl
  · decide

/-- CLAIM C3 (amended): for every file of size `S ≥ 1` the sender emits exactly
`ceil(S / CHUNK_SIZE)` chunks whose lengths sum to `S`; every chunk except the
last has length `CHUNK_SIZE`, and the last chunk has length `S % CHUNK_SIZE`
(or `CHUNK_SIZE` when that is zero).  (For `S = 0` the loop instead emits a
single empty chunk; see the counterexample.) -/
theorem sender_chunking_spec (S : Nat) (hS : 1 ≤ S) :
    (processChunksLens S 0).length = (S + CHUNK_SIZE - 1) / CHUNK_SIZE ∧
    (processChunksLens S 0).sum = S ∧
    (∀ c ∈ (processChunksLens S 0).dropLast, c = CHUNK_SIZE) ∧
    (processChunksLens S 0).getLast? =
      some (if S % CHUNK_SIZE = 0 then CHUNK_SIZE else S % CHUNK_SIZE) := by
  refine ⟨processChunksLens_length S hS, processChunksLens_sum S hS, ?_, ?_⟩
  · rw [processChunksLens_eq S 0 hS]
    intro c hc
    rw [List.dropLast_concat] at hc
    exact List.eq_of_mem_replicate hc
  · rw [processChunksLens_eq S 0 hS]
    rw [List.getLast?_concat]
    unfold lastLen
    simp

/-- CLAIM C3 (witness): the spec scenario of a 40000-byte file: 3 chunks,
16384 + 16384 + 7232 = 40000, last chunk 7232 = 40000 % 16384. -/
theorem sender_chunking_spec_witness :
    (processChunksLens 40000 0).length = (40000 + CHUNK_SIZE - 1) / CHUNK_SIZE ∧
    (processChunksLens 40000 0).sum = 40000 ∧
    (∀ c ∈ (processChunksLens 40000 0).dropLast, c = CHUNK_SIZE) ∧
    (processChunksLens 40000 0).getLast? =
      some (if 40000 % CHUNK_SIZE = 0 then CHUNK_SIZE else 40000 % CHUNK_SIZE) :=
  sender_chunking_spec 40000 (by decide)

/-! ## Receiver (App.tsx, `service.setOnMessage` handler, lines 49-92)

The handler keeps `incomingFileRef` (the single currently-incomplete inbound
transfer) and the `files` list of transfer records.  A text frame of type
`METADATA` creates both; a binary frame is appended to `incomingFileRef` when
one exists and ignored otherwise; when `receivedSize >= size` the record is
marked COMPLETED (via `finishReceivedFile`, which also fetches the insight and
the history entry; the status update is modelled as immediate) and
`incomingFileRef` is cleared.  File ids (`Math.random().toString(36)`) are
modelled as naturals supplied with the metadata event. -/

/-- Transfer status enum from `src/types.ts`. -/
inductive TransferStatus
  | UPLOADING
  | COMPLETED
  | FAILED
  | PENDING
  | CONNECTING
deriving DecidableEq, Repr

/-- Exact-rational model of the receiver progress computation
`Math.round((receivedSize / size) * 100)` (App.tsx line 80) for `den > 0`:
`Math.round x = floor (x + 1/2)` for nonnegative `x`, and
`floor (100 * num / den + 1 / 2) = (200 * num + den) / (2 * den)` in `Nat`
division.  (For `den = 0` the JavaScript expression is `NaN`; all inbound
transfers considered below have `den ≥ 1`.) -/
def jsRound100 (num den : Nat) : Nat :=
  (200 * num + den) / (2 * den)

/-- Model of `incomingFileRef.current` (App.tsx lines 20-26; the `name` and
`chunks` fields are dropped: only `byteLength` arithmetic is observed). -/
structure IncomingFile where
  id : Nat
  size : Nat
  receivedSize : Nat
deriving DecidableEq, Repr

/-- Model of one entry of the `files` React state (the fields the claims
mention). -/
structure FileRec where
  id : Nat
  size : Nat
  status : TransferStatus
  progress : Nat
deriving DecidableEq, Repr

/-- Receiver-side state: `incomingFileRef.current` plus the `files` list. -/
structure ReceiverState where
  incoming : Option IncomingFile
  files : List FileRec
deriving DecidableEq, Repr

/-- Messages delivered to the `setOnMessage` callback: a parsed `METADATA` text
frame (with the locally generated record id), or a binary frame of the given
byte length. -/
inductive RMessage
  | metadata (id size : Nat)
  | binary (len : Nat)
deriving DecidableEq, Repr

/-- Shallow embedding of the `service.setOnMessage` callback of App.tsx
(lines 49-92).  `METADATA`: set `incomingFileRef` and prepend an UPLOADING
record with progress 0.  Binary frame: if no incoming transfer exists, do
nothing; otherwise add the byte length, recompute progress, and on
`receivedSize >= size` mark the record COMPLETED and clear `incomingFileRef`. -/
def onMessage (s : ReceiverState) (m : RMessage) : ReceiverState :=
  match m with
  | .metadata id size =>
      { incoming := some { id := id, size := size, receivedSize := 0 },
        files := { id := id, size := size, status := .UPLOADING, progress := 0 } :: s.files }
  | .binary len =>
      match s.incoming with
      | none => s
      | some inc =>
          let received := inc.receivedSize + len
          let progress := jsRound100 received inc.size
          let files1 := s.files.map fun f =>
            if f.id = inc.id then { f with progress := progress } else f
          if inc.size ≤ received then
            { incoming := none,
              files := files1.map fun f =>
                if f.id = inc.id then { f with status := .COMPLETED } else f }
          else
            { incoming := some { inc with receivedSize := received }, files := files1 }

/-- Receiver state after the metadata announcement for a size-`S` transfer with
record id `id`, followed by the first `k` chunks the repository's own sender
emits for a size-`S` file. -/
def receiverAfter (id S k : Nat) : ReceiverState :=
  (((processChunksLens S 0).map RMessage.binary).take k).foldl onMessage
    (onMessage { incoming := none, files := [] } (.metadata id S))

theorem receiverAfter_zero (id S : Nat) :
    receiverAfter id S 0 =
      { incoming := some { id := id, size := S, receivedSize := 0 },
        files := [{ id := id, size := S, status := .UPLOADING, progress := 0 }] } := rfl

theorem receiverAfter_succ (id S k : Nat) :
    receiverAfter id S (k + 1) =
      match (processChunksLens S 0)[k]? with
      | some len => onMessage (receiverAfter id S k) (.binary len)
      | none => receiverAfter id S k := by
  unfold receiverAfter
  rw [List.take_succ, List.foldl_append]
  rw [List.getElem?_map]
  cases h : (processChunksLens S 0)[k]? with
  | none => simp
  | some len => simp

theorem jsRound100_zero (S : Nat) (hS : 1 ≤ S) : jsRound100 0 S = 0 := by
  unfold jsRound100
  apply Nat.div_eq_of_lt
  omega

theorem jsRound100_le_100 (r S : Nat) (hr : r ≤ S) (hS : 1 ≤ S) :
    jsRound100 r S ≤ 100 := by
  unfold jsRound100
  have h2S : 0 < 2 * S := by omega
  have hlt : 200 * r + S < 101 * (2 * S) := by omega
  have := (Nat.div_lt_iff_lt_mul h2S).mpr hlt
  omega

theorem jsRound100_mono (r1 r2 S : Nat) (h : r1 ≤ r2) :
    jsRound100 r1 S ≤ jsRound100 r2 S := by
  unfold jsRound100
  apply Nat.div_le_div_right
  omega

theorem jsRound100_eq_100_iff (r S : Nat) (hr : r ≤ S) (hS : 1 ≤ S) :
    jsRound100 r S = 100 ↔ 199 * S ≤ 200 * r := by
  have h2S : 0 < 2 * S := by omega
  constructor
  · intro h
    have h100 : 100 ≤ jsRound100 r S := by omega
    unfold jsRound100 at h100
    have := (Nat.le_div_iff_mul_le h2S).mp h100
    omega
  · intro h
    have h100 : 100 ≤ jsRound100 r S := by
      unfold jsRound100
      exact (Nat.le_div_iff_mul_le h2S).mpr (by omega)
    have := jsRound100_le_100 r S hr hS
    omega

theorem sum_take_le (l : List Nat) (k : Nat) : (l.take k).sum ≤ l.sum := by
  conv_rhs => rw [← List.take_append_drop k l]
  rw [List.sum_append]
  omega

theorem sum_take_lt (l : List Nat) (k : Nat) (hk : k < l.length)
    (hpos : ∀ c ∈ l, 1 ≤ c) : (l.take k).sum < l.sum := by
  conv_rhs => rw [← List.take_append_drop k l]
  rw [List.sum_append]
  have hne : l.drop k ≠ [] := by
    simp [List.drop_eq_nil_iff]
    omega
  obtain ⟨x, xs, hx⟩ := List.exists_cons_of_ne_nil hne
  have hxl : x ∈ l := List.drop_subset k l (by rw [hx]; exact List.mem_cons_self x xs)
  have := hpos x hxl
  rw [hx, List.sum_cons]
  omega

theorem sum_take_succ_of_getElem (l : List Nat) (k len : Nat)
    (h : l[k]? = some len) :
    (l.take (k + 1)).sum = (l.take k).sum + len := by
  rw [List.take_succ, h, List.sum_append]
  simp

/-- Explicit description of the receiver state after `k` of the sender's
chunks for a size-`S` transfer: the single record tracks the prefix sum of the
chunk lengths, is COMPLETED exactly when that sum reaches `S` (which also
clears `incomingFileRef`), and shows progress `jsRound100 received S`. -/
theorem receiverAfter_eq (id S k : Nat) (hS : 1 ≤ S) :
    receiverAfter id S k =
      { incoming := if ((processChunksLens S 0).take k).sum = S then none
                    else some { id := id, size := S,
                                receivedSize := ((processChunksLens S 0).take k).sum },
        files := [{ id := id, size := S,
                    status := if ((processChunksLens S 0).take k).sum = S then
                        TransferStatus.COMPLETED else TransferStatus.UPLOADING,
                    progress := jsRound100 (((processChunksLens S 0).take k).sum) S }] } := by
  induction k with
  | zero =>
    rw [receiverAfter_zero]
    simp only [List.take_zero, List.sum_nil]
    rw [if_neg (by omega), if_neg (by omega), jsRound100_zero S hS]
  | succ k ih =>
    rw [receiverAfter_succ]
    cases h : (processChunksLens S 0)[k]? with
    | none =>
      have hlen : (processChunksLens S 0).length ≤ k := by
        simpa [List.getElem?_eq_none_iff] using h
      have htake : (processChunksLens S 0).take (k + 1) = (processChunksLens S 0).take k := by
        rw [List.take_of_length_le hlen, List.take_of_length_le (by omega)]
      simp only [htake]
      exact ih
    | some len =>
      have hk : k < (processChunksLens S 0).length := by
        by_contra hh
        push_neg at hh
        rw [List.getElem?_eq_none_iff.mpr hh] at h
        exact Option.noConfusion h
      have hsumS : (processChunksLens S 0).sum = S := processChunksLens_sum S hS
      have hlt : ((processChunksLens S 0).take k).sum < S := by
        have := sum_take_lt (processChunksLens S 0) k hk (processChunksLens_pos S hS)
        omega
      have hsucc : ((processChunksLens S 0).take (k + 1)).sum
          = ((processChunksLens S 0).take k).sum + len :=
        sum_take_succ_of_getElem _ k len h
      rw [ih, hsucc]
      have hne : ¬ ((processChunksLens S 0).take k).sum = S := by omega
      simp only [if_neg hne, onMessage, List.map_cons, List.map_nil]
      have hle : ((processChunksLens S 0).take k).sum + len ≤ S := by
        have := sum_take_le (processChunksLens S 0) (k + 1)
        omega
      by_cases hfin : S ≤ ((processChunksLens S 0).take k).sum + len
      · have heq : ((processChunksLens S 0).take k).sum + len = S := by omega
        simp [hfin, heq]
      · have hne2 : ¬ ((processChunksLens S 0).take k).sum + len = S := by omega
        simp [hfin, hne2]

theorem sum_take_le_succ (l : List Nat) (k : Nat) :
    (l.take k).sum ≤ (l.take (k + 1)).sum := by
  rw [List.take_succ, List.sum_append]
  omega

/-- CLAIM C7 (amended): for an inbound transfer of announced size `S ≥ 1` fed
by the repository's own sender, after any number `k` of chunks: receivedBytes
(the prefix sum of chunk lengths) never exceeds `S`; the record is COMPLETED
(and `incomingFileRef` cleared) exactly when receivedBytes equals `S`; progress
is non-decreasing and within 0..100; but progress reaches 100 exactly when
`receivedBytes / S ≥ 199/200` — because `Math.round` rounds half up, the
display can reach 100 slightly before `receivedBytes = S` (see the
counterexample), not "iff equality" as claimed. -/
theorem receiver_inbound_invariants (id S k : Nat) (hS : 1 ≤ S) :
    ((processChunksLens S 0).take k).sum ≤ S ∧
    (receiverAfter id S k).files =
      [{ id := id, size := S,
         status := if ((processChunksLens S 0).take k).sum = S then
             TransferStatus.COMPLETED else TransferStatus.UPLOADING,
         progress := jsRound100 (((processChunksLens S 0).take k).sum) S }] ∧
    ((receiverAfter id S k).incoming = none ↔
      ((processChunksLens S 0).take k).sum = S) ∧
    jsRound100 (((processChunksLens S 0).take k).sum) S ≤ 100 ∧
    jsRound100 (((processChunksLens S 0).take k).sum) S
      ≤ jsRound100 (((processChunksLens S 0).take (k + 1)).sum) S ∧
    (jsRound100 (((processChunksLens S 0).take k).sum) S = 100 ↔
      199 * S ≤ 200 * ((processChunksLens S 0).take k).sum) := by
  have hsumS : (processChunksLens S 0).sum = S := processChunksLens_sum S hS
  have hle : ((processChunksLens S 0).take k).sum ≤ S := by
    have := sum_take_le (processChunksLens S 0) k
    omega
  refine ⟨hle, ?_, ?_, ?_, ?_, ?_⟩
  · rw [receiverAfter_eq id S k hS]
  · rw [receiverAfter_eq id S k hS]
    by_cases hc : ((processChunksLens S 0).take k).sum = S
    · simp [hc]
    · simp [hc]
  · exact jsRound100_le_100 _ S hle hS
  · exact jsRound100_mono _ _ S (sum_take_le_succ _ k)
  · exact jsRound100_eq_100_iff _ S hle hS

/-- CLAIM C7 (witness): the amended invariants at the spec scenario, a
40000-byte transfer after its first chunk. -/
theorem receiver_inbound_invariants_witness :
    ((processChunksLens 40000 0).take 1).sum ≤ 40000 ∧
    (receiverAfter 9 40000 1).files =
      [{ id := 9, size := 40000,
         status := if ((processChunksLens 40000 0).take 1).sum = 40000 then
             TransferStatus.COMPLETED else TransferStatus.UPLOADING,
         progress := jsRound100 (((processChunksLens 40000 0).take 1).sum) 40000 }] ∧
    ((receiverAfter 9 40000 1).incoming = none ↔
      ((processChunksLens 40000 0).take 1).sum = 40000) ∧
    jsRound100 (((processChunksLens 40000 0).take 1).sum) 40000 ≤ 100 ∧
    jsRound100 (((processChunksLens 40000 0).take 1).sum) 40000
      ≤ jsRound100 (((processChunksLens 40000 0).take 2).sum) 40000 ∧
    (jsRound100 (((processChunksLens 40000 0).take 1).sum) 40000 = 100 ↔
      199 * 40000 ≤ 200 * ((processChunksLens 40000 0).take 1).sum) :=
  receiver_inbound_invariants 9 40000 1 (by decide)

/-- CLAIM C7 (counterexample): a 16466-byte transfer after its first chunk of
16384 bytes (16384/16466 = 99.502% which `Math.round` lifts to 100): the
record shows progress 100 while receivedBytes = 16384 < 16466 and the transfer
is not COMPLETED — refuting "progress reaches 100 iff
receivedBytes == totalSize". -/
theorem progress_100_before_completion :
    receiverAfter 1 16466 1 =
      { incoming := some { id := 1, size := 16466, receivedSize := 16384 },
        files := [{ id := 1, size := 16466,
                    status := TransferStatus.UPLOADING, progress := 100 }] } := by
  decide

/-- CLAIM C10: a binary frame that arrives while `incomingFileRef.current` is
null (no METADATA yet, or the previous inbound transfer completed and cleared
it) is silently discarded: the receiver state is returned unchanged. -/
theorem binary_frame_without_incoming_ignored (s : ReceiverState) (len : Nat)
    (h : s.incoming = none) : onMessage s (.binary len) = s := by
  unfold onMessage
  rw [h]

/-- CLAIM C10 (witness): a binary frame arriving after a previous transfer
already completed (record list nonempty, `incomingFileRef` null) changes
nothing. -/
theorem binary_frame_without_incoming_ignored_witness :
    onMessage
      { incoming := none,
        files := [{ id := 1, size := 100,
                    status := TransferStatus.COMPLETED, progress := 100 }] }
      (.binary 7) =
      { incoming := none,
        files := [{ id := 1, size := 100,
                    status := TransferStatus.COMPLETED, progress := 100 }] } :=
  binary_frame_without_incoming_ignored _ 7 rfl

/-! ## Sender event machine (webrtcService.ts lines 171-258)

`sendFile` registers an entry in `activeTransfers` and starts `processChunks`;
the loop body runs in asynchronous callbacks (`FileReader.onload`,
`onbufferedamountlow`) and in `pauseTransfer`/`resumeTransfer` invoked by the
user.  The machine below models one transfer id.  A `FileReader` read issued by
`readNext` captures the slice `[offset, offset + CHUNK_SIZE)` at issue time;
its completion is a separate event, so reads issued by different `processChunks`
invocations can be simultaneously in flight (`pendingReads`, completed in issue
order).  `dataChannel` is modelled as always present, with `channelOpen`
standing for `readyState === 'open'`; calling `send` on a non-open channel
throws inside the event handler, modelled by the `uncaughtError` flag.
Each binary `send` is logged in `writes` together with the buffered-amount
sample that justified it (`some n`: the direct path sampled `n ≤`
HIGH_WATER_MARK; `none`: the write had been deferred to the
`bufferedamountlow` handler). -/

/-- Error taxonomy of the spec (§7) for the errors the service throws:
`connectionLost` is `throw new Error('Connection disconnected.')`,
`invalidToken` is `throw new Error("Invalid Handshake Token")`. -/
inductive TransferError
  | connectionLost
  | invalidToken
deriving DecidableEq, Repr

/-- Byte range of one binary frame: a slice starting at `start` of `len`
bytes. -/
structure Chunk where
  start : Nat
  len : Nat
deriving DecidableEq, Repr

/-- Entry of `activeTransfers` (webrtcService.ts lines 14-19); the `file` is
reduced to its size and `onProgress` is not tracked. -/
structure OutTransfer where
  fileSize : Nat
  offset : Nat
  isPaused : Bool
deriving DecidableEq, Repr

/-- One chunk write, with the buffered-amount sample that let it through
(`some n` with `n ≤ HIGH_WATER_MARK`) or `none` when it was issued by the
`bufferedamountlow` drain handler. -/
structure WriteRec where
  chunk : Chunk
  sampledBuffered : Option Nat
deriving DecidableEq, Repr

/-- State of the sender for a single transfer id. -/
structure SenderState where
  transfer : Option OutTransfer
  pendingReads : List Chunk
  onBufferedAmountLow : Option Chunk
  channelOpen : Bool
  writes : List WriteRec
  uncaughtError : Bool
deriving DecidableEq, Repr

/-- Binary frames handed to `dataChannel.send`, in order. -/
def sentChunks (s : SenderState) : List Chunk :=
  s.writes.map WriteRec.chunk

/-- Fresh service state with an open data channel and no active transfer. -/
def senderStart : SenderState :=
  { transfer := none, pendingReads := [], onBufferedAmountLow := none,
    channelOpen := true, writes := [], uncaughtError := false }

/-- The `readNext` closure of `processChunks` (lines 201-206): when the
transfer is not paused, issue a `FileReader` read of
`file.slice(offset, offset + CHUNK_SIZE)`; `slice` clamps, so the captured
length is `min CHUNK_SIZE (fileSize - offset)`. -/
def readNextStep (s : SenderState) : SenderState :=
  match s.transfer with
  | none => s
  | some t =>
      if t.isPaused then s
      else { s with pendingReads :=
        s.pendingReads ++ [{ start := t.offset,
                             len := min CHUNK_SIZE (t.fileSize - t.offset) }] }

/-- Guard plus first `readNext` of `processChunks` (lines 194-196, 224):
return unless the transfer exists, is not paused, and the channel is open. -/
def processChunksStep (s : SenderState) : SenderState :=
  match s.transfer with
  | none => s
  | some t =>
      if t.isPaused ∨ s.channelOpen = false then s
      else readNextStep s

/-- `sendChunk` (lines 227-240): re-fetch the transfer (deleted → return),
`dataChannel.send(buffer)` (throws when the channel is no longer open),
advance `offset` by the buffer length, then either `readNext` for the next
chunk or delete the `activeTransfers` entry when the file is done.  Note there
is no pause check here: a chunk already read is always sent. -/
def sendChunkStep (s : SenderState) (ch : Chunk) (sampled : Option Nat) : SenderState :=
  match s.transfer with
  | none => s
  | some t =>
      if s.channelOpen = false then { s with uncaughtError := true }
      else
        let s1 := { s with writes := s.writes ++ [{ chunk := ch, sampledBuffered := sampled }],
                           transfer := some { t with offset := t.offset + ch.len } }
        if t.offset + ch.len < t.fileSize then readNextStep s1
        else { s1 with transfer := none }

/-- The `reader.onload` handler (lines 208-222) firing for the oldest pending
read, with `sampled` the value of `dataChannel.bufferedAmount` observed at
that moment: above the 2 MiB high-water mark the chunk is parked in the
`onbufferedamountlow` handler slot (overwriting it, as assignment does);
otherwise it is sent immediately. -/
def readCompleteStep (s : SenderState) (sampled : Nat) : SenderState :=
  match s.pendingReads with
  | [] => s
  | ch :: rest =>
      if HIGH_WATER_MARK < sampled then
        { s with pendingReads := rest, onBufferedAmountLow := some ch }
      else
        sendChunkStep { s with pendingReads := rest } ch (some sampled)

/-- The `bufferedamountlow` event (lines 212-217): the channel reports its
buffered amount drained to `bufferedAmountLowThreshold` (default 0); the
handler clears itself and sends the parked chunk. -/
def bufferedLowStep (s : SenderState) : SenderState :=
  match s.onBufferedAmountLow with
  | none => s
  | some ch => sendChunkStep { s with onBufferedAmountLow := none } ch none

/-- `pauseTransfer` (lines 172-180): set the paused flag.  (The
`TRANSFER_CONTROL` text frame it also sends is advisory and not tracked.) -/
def pauseTransferStep (s : SenderState) : SenderState :=
  match s.transfer with
  | none => s
  | some t => { s with transfer := some { t with isPaused := true } }

/-- `resumeTransfer` (lines 183-192): clear the paused flag and call
`processChunks` again — creating a new `FileReader` loop even if a read from
the previous loop is still in flight. -/
def resumeTransferStep (s : SenderState) : SenderState :=
  match s.transfer with
  | none => s
  | some t =>
      if t.isPaused then
        processChunksStep { s with transfer := some { t with isPaused := false } }
      else s

/-- `sendFile` (lines 242-258): requires `readyState === 'open'`, otherwise
`throw new Error('Connection disconnected.')`; then sends the `METADATA`
frame, registers the transfer at offset 0, and starts `processChunks`. -/
def sendFileCall (s : SenderState) (size : Nat) : Except TransferError SenderState :=
  if s.channelOpen = false then Except.error TransferError.connectionLost
  else Except.ok (processChunksStep
    { s with transfer := some { fileSize := size, offset := 0, isPaused := false } })

/-- Asynchronous events that can interleave with the send loop. -/
inductive SenderEvent
  | readComplete (sampledBufferedAmount : Nat)
  | bufferedLow
  | pause
  | resume
  | channelClose
deriving DecidableEq, Repr

/-- One event dispatch.  `channelClose` models the data channel leaving the
`open` readyState (its `onclose` handler only fires the status callback). -/
def senderStep (s : SenderState) (e : SenderEvent) : SenderState :=
  match e with
  | .readComplete n => readCompleteStep s n
  | .bufferedLow => bufferedLowStep s
  | .pause => pauseTransferStep s
  | .resume => resumeTransferStep s
  | .channelClose => { s with channelOpen := false }

/-- Run of the sender machine over a list of events. -/
def senderRun (s : SenderState) (es : List SenderEvent) : SenderState :=
  es.foldl senderStep s

/-- Status the App assigns to an outbound record from the outcome of awaiting
`sendFile` (App.tsx lines 148-162): FAILED exactly when the call rejects; on
success the record keeps streaming status until the separate completion
update. -/
def appSendFileStatus (r : Except TransferError SenderState) : TransferStatus :=
  match r with
  | .error _ => TransferStatus.FAILED
  | .ok _ => TransferStatus.UPLOADING

/-- CLAIM C4 (the failing trace, evaluated): a `2 * CHUNK_SIZE`-byte file is
sent; while the first read is in flight the user pauses and immediately
resumes.  `resumeTransfer` starts a second `processChunks` loop reading again
from offset 0, and `sendChunk` never re-checks the pause flag, so after the
three reads complete the channel has carried the slice `[0, CHUNK_SIZE)`
twice and the slice `[CHUNK_SIZE, 2 * CHUNK_SIZE)` never, yet the transfer is
deleted as complete — bytes are both duplicated and skipped, contradicting
pause/resume exactness. -/
theorem pause_resume_race_duplicates_bytes :
    (sendFileCall senderStart (2 * CHUNK_SIZE)).toOption.map
        (fun st =>
          let fin := senderRun st
            [.pause, .resume, .readComplete 0, .readComplete 0, .readComplete 0]
          (sentChunks fin, fin.transfer)) =
      some ([{ start := 0, len := CHUNK_SIZE }, { start := 0, len := CHUNK_SIZE }],
            none) := by
  decide

/-- Justification carried by each logged chunk write: either the direct path
sampled `bufferedAmount ≤ HIGH_WATER_MARK` right before the write, or the
write had been deferred and was issued by the `bufferedamountlow` drain
event. -/
def writeJustified (w : WriteRec) : Prop :=
  (∃ n, w.sampledBuffered = some n ∧ n ≤ HIGH_WATER_MARK) ∨ w.sampledBuffered = none

theorem writes_readNextStep (s : SenderState) :
    (readNextStep s).writes = s.writes := by
  unfold readNextStep
  split
  · rfl
  · split <;> rfl

theorem writes_processChunksStep (s : SenderState) :
    (processChunksStep s).writes = s.writes := by
  unfold processChunksStep
  split
  · rfl
  · split
    · rfl
    · exact writes_readNextStep s

theorem writes_sendChunkStep (s : SenderState) (ch : Chunk) (sampled : Option Nat) :
    (sendChunkStep s ch sampled).writes = s.writes ∨
    (sendChunkStep s ch sampled).writes =
      s.writes ++ [{ chunk := ch, sampledBuffered := sampled }] := by
  unfold sendChunkStep
  split
  · exact Or.inl rfl
  · split
    · exact Or.inl rfl
    · split
      · right
        rw [writes_readNextStep]
      · exact Or.inr rfl

theorem senderStep_writes_justified (s : SenderState) (e : SenderEvent)
    (h : ∀ w ∈ s.writes, writeJustified w) :
    ∀ w ∈ (senderStep s e).writes, writeJustified w := by
  cases e with
  | readComplete n =>
    simp only [senderStep]
    unfold readCompleteStep
    split
    · exact h
    · rename_i ch rest _
      split
      · exact h
      · rename_i hn
        rcases writes_sendChunkStep { s with pendingReads := rest } ch (some n) with hw | hw
        · rw [hw]; exact h
        · rw [hw]
          intro w hwmem
          rcases List.mem_append.1 hwmem with hmem | hmem
          · exact h w hmem
          · simp only [List.mem_singleton] at hmem
            subst hmem
            exact Or.inl ⟨n, rfl, by omega⟩
  | bufferedLow =>
    simp only [senderStep]
    unfold bufferedLowStep
    split
    · exact h
    · rename_i ch _
      rcases writes_sendChunkStep { s with onBufferedAmountLow := none } ch none with hw | hw
      · rw [hw]; exact h
      · rw [hw]
        intro w hwmem
        rcases List.mem_append.1 hwmem with hmem | hmem
        · exact h w hmem
        · simp only [List.mem_singleton] at hmem
          subst hmem
          exact Or.inr rfl
  | pause =>
    simp only [senderStep]
    unfold pauseTransferStep
    split
    · exact h
    · exact h
  | resume =>
    simp only [senderStep]
    unfold resumeTransferStep
    split
    · exact h
    · split
      · rw [writes_processChunksStep]; exact h
      · exact h
  | channelClose => exact h

/-- CLAIM C5: the low-water mark (the default `bufferedAmountLowThreshold`,
never reassigned by the code) is strictly below the 2,097,152-byte high-water
mark, and along every event interleaving every chunk write is justified:
either the `bufferedAmount` sampled immediately before the write was at most
the high-water mark, or the write had been deferred to the channel's
`bufferedamountlow` (buffering drained) event. -/
theorem chunk_writes_paced (s : SenderState) (es : List SenderEvent)
    (h : ∀ w ∈ s.writes, writeJustified w) :
    BUFFERED_AMOUNT_LOW_THRESHOLD < HIGH_WATER_MARK ∧
    ∀ w ∈ (senderRun s es).writes, writeJustified w := by
  constructor
  · decide
  · induction es generalizing s with
    | nil => exact h
    | cons e es ih =>
      exact ih (senderStep s e) (senderStep_writes_justified s e h)

/-- CLAIM C5 (witness): pacing justification along a concrete run in which the
first chunk finds the buffer above the high-water mark and is deferred to the
drain event, and the second is written directly. -/
theorem chunk_writes_paced_witness :
    BUFFERED_AMOUNT_LOW_THRESHOLD < HIGH_WATER_MARK ∧
    ∀ w ∈ (senderRun
        { transfer := some { fileSize := 2 * CHUNK_SIZE, offset := 0, isPaused := false },
          pendingReads := [{ start := 0, len := CHUNK_SIZE }],
          onBufferedAmountLow := none, channelOpen := true,
          writes := [], uncaughtError := false }
        [.readComplete 3000000, .bufferedLow, .readComplete 5]).writes,
      writeJustified w :=
  chunk_writes_paced _ _ (by simp)

/-- CLAIM C6 (counterexample): the channel closes mid-transfer, after
`sendFile` already returned successfully.  The pending read then completes:
`processChunks`'s guard and `sendChunk`'s throw leave only an uncaught error
inside the event handler — no `connectionLost` is ever produced for this
transfer (the only `connectionLost` site is the initial readyState check), the
`activeTransfers` record stays registered at its old offset, and the App-side
status therefore is never set to FAILED — refuting "fails with ConnectionLost
and the record is marked Failed". -/
theorem midtransfer_close_no_failure :
    (sendFileCall senderStart (2 * CHUNK_SIZE)).toOption.map
        (fun st => senderRun st [.channelClose, .readComplete 0]) =
      some { transfer := some { fileSize := 2 * CHUNK_SIZE, offset := 0, isPaused := false },
             pendingReads := [], onBufferedAmountLow := none, channelOpen := false,
             writes := [], uncaughtError := true } ∧
    appSendFileStatus (sendFileCall senderStart (2 * CHUNK_SIZE)) ≠
      TransferStatus.FAILED := by
  decide

/-- CLAIM C6 (amended): calling `sendFile` while the channel is not open
fails with `connectionLost` and the caller marks the record FAILED; but when
the channel becomes non-open mid-transfer, the next chunk write merely throws
an uncaught error inside the handler: the state is otherwise unchanged — the
transfer entry stays registered, nothing is written, no `connectionLost`
reaches the caller and the record is not marked Failed.  (There is indeed no
automatic retry: the step leaves the machine stuck.) -/
theorem sendFile_connection_behavior (s : SenderState) (size : Nat)
    (ch : Chunk) (sampled : Option Nat) (t : OutTransfer)
    (hclosed : s.channelOpen = false) (ht : s.transfer = some t) :
    sendFileCall s size = Except.error TransferError.connectionLost ∧
    appSendFileStatus (sendFileCall s size) = TransferStatus.FAILED ∧
    sendChunkStep s ch sampled = { s with uncaughtError := true } := by
  have h1 : sendFileCall s size = Except.error TransferError.connectionLost := by
    unfold sendFileCall
    rw [if_pos hclosed]
  refine ⟨h1, ?_, ?_⟩
  · rw [h1]; rfl
  · unfold sendChunkStep
    rw [ht, hclosed]
    simp

/-- CLAIM C6 (witness): the amended behavior at a concrete mid-transfer state
whose channel has closed. -/
theorem sendFile_connection_behavior_witness :
    sendFileCall
        { transfer := some { fileSize := 32768, offset := 16384, isPaused := false },
          pendingReads := [], onBufferedAmountLow := none, channelOpen := false,
          writes := [], uncaughtError := false } 100 =
      Except.error TransferError.connectionLost ∧
    appSendFileStatus (sendFileCall
        { transfer := some { fileSize := 32768, offset := 16384, isPaused := false },
          pendingReads := [], onBufferedAmountLow := none, channelOpen := false,
          writes := [], uncaughtError := false } 100) = TransferStatus.FAILED ∧
    sendChunkStep
        { transfer := some { fileSize := 32768, offset := 16384, isPaused := false },
          pendingReads := [], onBufferedAmountLow := none, channelOpen := false,
          writes := [], uncaughtError := false }
        { start := 16384, len := 16384 } (some 0) =
      { transfer := some { fileSize := 32768, offset := 16384, isPaused := false },
        pendingReads := [], onBufferedAmountLow := none, channelOpen := false,
        writes := [], uncaughtError := true } :=
  sendFile_connection_behavior _ 100 _ (some 0) _ rfl rfl

/-! ## ICE candidate handling (webrtcService.ts lines 134-141) -/

/-- Opaque network-discovery candidate payload. -/
structure IceCandidate where
  payload : Nat
deriving DecidableEq, Repr

/-- The peer-connection state `handleIceCandidate` acts on: the remote
description (set by `setRemoteDescription` in `handleOffer`/`handleAnswer`,
opaque here) and the candidates successfully passed to `addIceCandidate`. -/
structure PeerConnectionState where
  remoteDescription : Option Nat
  appliedCandidates : List IceCandidate
deriving DecidableEq, Repr

/-- Model of the platform's `RTCPeerConnection.addIceCandidate`: it rejects
with `InvalidStateError` while no remote description has been applied, and
otherwise registers the candidate. -/
def addIceCandidate (pc : PeerConnectionState) (c : IceCandidate) :
    Option PeerConnectionState :=
  match pc.remoteDescription with
  | none => none
  | some _ => some { pc with appliedCandidates := pc.appliedCandidates ++ [c] }

/-- `handleIceCandidate` (lines 134-141): `try { await addIceCandidate }
catch { console.warn('ICE Candidate skipped') }` — a candidate that fails to
apply is discarded; the method keeps no queue and never retries. -/
def handleIceCandidate (pc : PeerConnectionState) (c : IceCandidate) :
    PeerConnectionState :=
  match addIceCandidate pc c with
  | none => pc
  | some pc2 => pc2

/-- CLAIM C1 (counterexample): a candidate arriving while the remote
description is unset leaves the coordinator state completely unchanged — the
candidate is not applied and no component of the state retains it, so nothing
can be "queued and retried later"; the candidate is dropped. -/
theorem early_candidate_dropped :
    handleIceCandidate { remoteDescription := none, appliedCandidates := [] }
        { payload := 7 } =
      { remoteDescription := none, appliedCandidates := [] } ∧
    ({ payload := 7 } : IceCandidate) ∉
      (handleIceCandidate { remoteDescription := none, appliedCandidates := [] }
        { payload := 7 }).appliedCandidates := by
  decide

/-- CLAIM C1 (amended): a candidate envelope arriving before a remote
description exists fails `addIceCandidate`, is caught, logged and discarded —
the state is unchanged and there is no queue or retry; a candidate arriving
after the remote description is set is applied immediately. -/
theorem handleIceCandidate_spec (pc : PeerConnectionState) (c : IceCandidate) :
    (pc.remoteDescription = none → handleIceCandidate pc c = pc) ∧
    (∀ d, pc.remoteDescription = some d →
      handleIceCandidate pc c =
        { pc with appliedCandidates := pc.appliedCandidates ++ [c] }) := by
  constructor
  · intro h
    unfold handleIceCandidate addIceCandidate
    rw [h]
  · intro d h
    unfold handleIceCandidate addIceCandidate
    rw [h]

/-- CLAIM C1 (witness): both branches of the amended claim at concrete
states. -/
theorem handleIceCandidate_spec_witness :
    handleIceCandidate { remoteDescription := none, appliedCandidates := [] }
        { payload := 5 } =
      { remoteDescription := none, appliedCandidates := [] } ∧
    handleIceCandidate { remoteDescription := some 3, appliedCandidates := [] }
        { payload := 5 } =
      { remoteDescription := some 3, appliedCandidates := [{ payload := 5 }] } :=
  ⟨(handleIceCandidate_spec _ _).1 rfl,
   (handleIceCandidate_spec
      { remoteDescription := some 3, appliedCandidates := [] } _).2 3 rfl⟩

/-! ## Insight lookup (geminiService.ts / unnamed part_000)

`getFileInsight` wraps the external generate-content request in
`try/catch`: a thrown error yields the fixed string
"File processed successfully.", and an empty or absent response text is
replaced by "Standard file transfer." via `response.text || ...`.  The
external request outcome is a parameter of the model. -/

/-- Outcome of the external generate-content request: the promise rejected, or
it resolved with an optional text (absent or empty `response.text` are both
falsy in `response.text || fallback`). -/
inductive InsightOutcome
  | failure
  | response (text : Option String)
deriving DecidableEq, Repr

/-- Shallow embedding of `getFileInsight` (geminiService.ts lines 7-24). -/
def getFileInsight (fileName fileType : String) (fileSize : Nat)
    (outcome : InsightOutcome) : String :=
  match outcome with
  | .failure => "File processed successfully."
  | .response none => "Standard file transfer."
  | .response (some t) => if t = "" then "Standard file transfer." else t

/-- CLAIM C8: `getFileInsight` never raises — it is a total function into
strings: on a failed lookup it returns the fixed fallback
"File processed successfully.", and every other outcome also maps to a
definite string (the response text, or "Standard file transfer." when that is
empty). -/
theorem getFileInsight_never_raises (fileName fileType : String)
    (fileSize : Nat) (outcome : InsightOutcome) :
    getFileInsight fileName fileType fileSize .failure =
      "File processed successfully." ∧
    (getFileInsight fileName fileType fileSize outcome =
        "File processed successfully." ∨
      getFileInsight fileName fileType fileSize outcome =
        "Standard file transfer." ∨
      ∃ t, outcome = .response (some t) ∧
        getFileInsight fileName fileType fileSize outcome = t) := by
  refine ⟨rfl, ?_⟩
  cases outcome with
  | failure => exact Or.inl rfl
  | response text =>
    cases text with
    | none => exact Or.inr (Or.inl rfl)
    | some t =>
      by_cases ht : t = ""
      · refine Or.inr (Or.inl ?_)
        simp [getFileInsight, ht]
      · refine Or.inr (Or.inr ⟨t, rfl, ?_⟩)
        simp [getFileInsight, ht]

/-! ## Room codes (App.tsx lines 115-123)

`createRoom` sets `Math.random().toString(36).substring(2, 8).toUpperCase()`.
For `0 ≤ x < 1`, `Number.prototype.toString(36)` renders `"0"` when the value
is zero and otherwise `"0."` followed by the base-36 digits of the fraction
with no trailing zeros; the digit list is the model's input.  `substring(2, 8)`
takes the characters at positions 2..7 — fewer when the rendered string is
shorter.  `joinRoom` canonicalizes the entered code with `toUpperCase()` and
accepts it only at length 6. -/

/-- Base-36 digit character as produced by `toString(36)`: `0`-`9` then
lowercase `a`-`z`. -/
def digitChar36 (d : Fin 36) : Char :=
  if d.val < 10 then Char.ofNat (48 + d.val) else Char.ofNat (87 + d.val)

/-- Characters of `x.toString(36)` for a random `x` in `[0, 1)` whose base-36
fraction digits (without trailing zeros) are `digits`. -/
def randomToString36 (digits : List (Fin 36)) : List Char :=
  match digits with
  | [] => ['0']
  | d :: ds => '0' :: '.' :: (d :: ds).map digitChar36

/-- `createRoom` (App.tsx line 116):
`Math.random().toString(36).substring(2, 8).toUpperCase()`. -/
def createRoom (digits : List (Fin 36)) : String :=
  String.mk ((((randomToString36 digits).drop 2).take 6).map Char.toUpper)

/-- Canonicalization applied by `joinRoom` (App.tsx line 122):
`joinInput.toUpperCase()`. -/
def canonicalizeCode (s : String) : String :=
  String.mk (s.data.map Char.toUpper)

/-- Uppercase ASCII alphanumeric character. -/
def isUpperAlnum (c : Char) : Prop :=
  (65 ≤ c.toNat ∧ c.toNat ≤ 90) ∨ (48 ≤ c.toNat ∧ c.toNat ≤ 57)

instance (c : Char) : Decidable (isUpperAlnum c) := by
  unfold isUpperAlnum
  infer_instance

theorem digitChar36_upper (d : Fin 36) :
    isUpperAlnum (Char.toUpper (digitChar36 d)) := by
  revert d
  decide

theorem toUpper_toUpper_of_ascii (c : Char) (h : c.toNat < 128) :
    Char.toUpper (Char.toUpper c) = Char.toUpper c := by
  have key : ∀ n : Fin 128,
      Char.toUpper (Char.toUpper (Char.ofNat n.val)) =
        Char.toUpper (Char.ofNat n.val) := by decide
  have := key ⟨c.toNat, h⟩
  rwa [Char.ofNat_toNat] at this

/-- CLAIM C9 (counterexample): `Math.random()` can return 0.5, whose base-36
rendering is `"0.i"`; `substring(2, 8)` then yields the single character `"i"`
and the room id is `"I"` — one character, not six.  So not every produced room
id has exactly 6 characters. -/
theorem room_code_can_be_short :
    createRoom [(18 : Fin 36)] = "I" ∧ (createRoom [(18 : Fin 36)]).length ≠ 6 := by
  decide

/-- CLAIM C9 (amended): a produced room id consists only of uppercase
alphanumeric characters and has `min digits 6` characters — exactly 6 whenever
the random value's base-36 fraction has at least 6 digits (the typical case),
but fewer when the rendering terminates early; and canonicalization uppercases
and is idempotent on ASCII input, so joining with a lowercase variant of a
code yields the same canonical room id. -/
theorem room_code_spec (digits : List (Fin 36)) (s : String)
    (hs : ∀ c ∈ s.data, c.toNat < 128) :
    (createRoom digits).length = min digits.length 6 ∧
    (∀ c ∈ (createRoom digits).data, isUpperAlnum c) ∧
    (6 ≤ digits.length → (createRoom digits).length = 6) ∧
    canonicalizeCode (canonicalizeCode s) = canonicalizeCode s := by
  have hdata : (createRoom digits).data =
      (((randomToString36 digits).drop 2).take 6).map Char.toUpper := rfl
  have hlen : (createRoom digits).length = min digits.length 6 := by
    have h0 : (createRoom digits).length =
        ((((randomToString36 digits).drop 2).take 6).map Char.toUpper).length := rfl
    rw [h0]
    cases digits with
    | nil => rfl
    | cons d ds =>
      simp only [randomToString36, List.drop_succ_cons, List.drop_zero,
        List.length_map, List.length_take, List.length_cons]
      omega
  refine ⟨hlen, ?_, ?_, ?_⟩
  · intro c hc
    rw [hdata] at hc
    obtain ⟨c0, hc0, rfl⟩ := List.mem_map.1 hc
    have hc1 : c0 ∈ (randomToString36 digits).drop 2 := List.take_subset _ _ hc0
    cases digits with
    | nil => simp [randomToString36] at hc1
    | cons d ds =>
      simp only [randomToString36, List.drop_succ_cons, List.drop_zero] at hc1
      obtain ⟨d0, _, rfl⟩ := List.mem_map.1 hc1
      exact digitChar36_upper d0
  · intro h6
    rw [hlen]
    omega
  · show String.mk ((s.data.map Char.toUpper).map Char.toUpper) =
      String.mk (s.data.map Char.toUpper)
    rw [List.map_map]
    congr 1
    apply List.map_congr_left
    intro c hc
    exact toUpper_toUpper_of_ascii c (hs c hc)

/-- CLAIM C9 (witness): the spec scenario — creating with digit expansion
`"ab12cd"` and joining with the lowercase variant gives the same canonical
code, and canonicalization is idempotent there. -/
theorem room_code_spec_witness :
    (createRoom [10, 11, 1, 2, 12, 13]).length = min ([10, 11, 1, 2, 12, 13] : List (Fin 36)).length 6 ∧
    (∀ c ∈ (createRoom [10, 11, 1, 2, 12, 13]).data, isUpperAlnum c) ∧
    (6 ≤ ([10, 11, 1, 2, 12, 13] : List (Fin 36)).length →
      (createRoom [10, 11, 1, 2, 12, 13]).length = 6) ∧
    canonicalizeCode (canonicalizeCode "ab12cd") = canonicalizeCode "ab12cd" :=
  room_code_spec [10, 11, 1, 2, 12, 13] "ab12cd" (by decide)

/-! ## Manual token import (webrtcService.ts lines 143-161)

`processManualToken` runs `JSON.parse(atob(token))` inside `try/catch`; a
decode failure throws `new Error("Invalid Handshake Token")`.  The platform
functions `atob` and `JSON.parse` are modelled below: `atobModel` implements
forgiving base64 (strip up to two trailing `=` when the length is a multiple
of 4, reject a remaining length of 1 mod 4 and any character outside the
alphabet), and `parseJ` implements the JSON grammar fragment session
descriptors use (strings without escapes, integers, booleans, null, arrays,
objects); both are exercised on concrete tokens in the theorems.  Characters
that are syntactically awkward in this file (quote, backslash, braces) are
named constants. -/

def quoteChar : Char := Char.ofNat 34

def backslashChar : Char := Char.ofNat 92

def lbraceChar : Char := Char.ofNat 123

def rbraceChar : Char := Char.ofNat 125

/-- Value of one base64 alphabet character, `none` outside the alphabet. -/
def base64Index (c : Char) : Option Nat :=
  if 65 ≤ c.toNat ∧ c.toNat ≤ 90 then some (c.toNat - 65)
  else if 97 ≤ c.toNat ∧ c.toNat ≤ 122 then some (c.toNat - 97 + 26)
  else if 48 ≤ c.toNat ∧ c.toNat ≤ 57 then some (c.toNat - 48 + 52)
  else if c = '+' then some 62
  else if c = '/' then some 63
  else none

/-- Reassemble 6-bit groups into bytes (leftover bits of a trailing group of
2 or 3 characters are discarded, as in forgiving base64). -/
def sextetsToBytes : List Nat → Option (List Nat)
  | [] => some []
  | [_] => none
  | [a, b] => some [a * 4 + b / 16]
  | [a, b, c] => some [a * 4 + b / 16, b % 16 * 16 + c / 4]
  | a :: b :: c :: d :: rest =>
      (sextetsToBytes rest).map
        (fun bs => (a * 4 + b / 16) :: (b % 16 * 16 + c / 4) :: (c % 4 * 64 + d) :: bs)

/-- Strip up to two trailing `=` when the input length is a multiple of 4. -/
def stripBase64Padding (cs : List Char) : List Char :=
  if cs.length % 4 = 0 then
    match cs.reverse with
    | '=' :: '=' :: rest => rest.reverse
    | '=' :: rest => rest.reverse
    | _ => cs
  else cs

/-- Model of the platform's `atob`, producing the decoded bytes. -/
def atobModel (s : String) : Option (List Nat) :=
  let cs := stripBase64Padding s.data
  if cs.length % 4 = 1 then none
  else (cs.mapM base64Index).bind sextetsToBytes

/-- JSON values (the fragment relevant to session descriptors). -/
inductive JsonValue
  | str (s : String)
  | num (n : Int)
  | bool (b : Bool)
  | null
  | arr (elems : List JsonValue)
  | obj (fields : List (String × JsonValue))

/-- Skip JSON whitespace. -/
def skipWs : List Char → List Char
  | [] => []
  | c :: rest =>
      if c = ' ' ∨ c = '\n' ∨ c = '\t' ∨ c = '\r' then skipWs rest else c :: rest

/-- Body of a JSON string after the opening quote (no escape sequences). -/
def parseStringBody : List Char → Option (List Char × List Char)
  | [] => none
  | c :: rest =>
      if c = quoteChar then some ([], rest)
      else if c = backslashChar then none
      else (parseStringBody rest).map (fun p => (c :: p.1, p.2))

def isDigitChar (c : Char) : Bool :=
  decide (48 ≤ c.toNat ∧ c.toNat ≤ 57)

def digitsToNat (ds : List Char) : Nat :=
  ds.foldl (fun acc c => acc * 10 + (c.toNat - 48)) 0

/-- Integer literals (the only numeric form the model accepts). -/
def parseNumber (cs : List Char) : Option (Int × List Char) :=
  match cs with
  | [] => none
  | c :: rest =>
      if c = '-' then
        match rest.takeWhile isDigitChar with
        | [] => none
        | ds => some (-(Int.ofNat (digitsToNat ds)), rest.dropWhile isDigitChar)
      else
        match cs.takeWhile isDigitChar with
        | [] => none
        | ds => some (Int.ofNat (digitsToNat ds), cs.dropWhile isDigitChar)

/-- Subtasks of the recursive-descent JSON parser: a value, the remaining
fields of an object (returned as `.obj`), or the remaining elements of an
array (returned as `.arr`). -/
inductive JTask
  | value
  | objRest
  | arrRest

/-- Recursive-descent JSON parser with fuel (structural recursion so that
concrete tokens evaluate).  Each recursive call consumes at least one input
character, so `length + 1` fuel suffices. -/
def parseJ : Nat → JTask → List Char → Option (JsonValue × List Char)
  | 0, _, _ => none
  | fuel + 1, .value, cs =>
      match skipWs cs with
      | [] => none
      | c :: rest =>
          if c = quoteChar then
            (parseStringBody rest).map (fun p => (JsonValue.str (String.mk p.1), p.2))
          else if c = lbraceChar then parseJ fuel .objRest rest
          else if c = '[' then parseJ fuel .arrRest rest
          else if c = 't' then
            match rest with
            | 'r' :: 'u' :: 'e' :: rest2 => some (JsonValue.bool true, rest2)
            | _ => none
          else if c = 'f' then
            match rest with
            | 'a' :: 'l' :: 's' :: 'e' :: rest2 => some (JsonValue.bool false, rest2)
            | _ => none
          else if c = 'n' then
            match rest with
            | 'u' :: 'l' :: 'l' :: rest2 => some (JsonValue.null, rest2)
            | _ => none
          else
            (parseNumber (c :: rest)).map (fun p => (JsonValue.num p.1, p.2))
  | fuel + 1, .objRest, cs =>
      match skipWs cs with
      | [] => none
      | c :: rest =>
          if c = rbraceChar then some (JsonValue.obj [], rest)
          else if c = quoteChar then
            match parseStringBody rest with
            | none => none
            | some (key, rest2) =>
                match skipWs rest2 with
                | [] => none
                | c2 :: rest3 =>
                    if c2 = ':' then
                      match parseJ fuel .value rest3 with
                      | none => none
                      | some (v, rest4) =>
                          match skipWs rest4 with
                          | [] => none
                          | c3 :: rest5 =>
                              if c3 = ',' then
                                match parseJ fuel .objRest rest5 with
                                | some (JsonValue.obj fields, rest6) =>
                                    some (JsonValue.obj ((String.mk key, v) :: fields), rest6)
                                | _ => none
                              else if c3 = rbraceChar then
                                some (JsonValue.obj [(String.mk key, v)], rest5)
                              else none
                    else none
          else none
  | fuel + 1, .arrRest, cs =>
      match skipWs cs with
      | [] => none
      | c :: rest =>
          if c = ']' then some (JsonValue.arr [], rest)
          else
            match parseJ fuel .value (c :: rest) with
            | none => none
            | some (v, rest2) =>
                match skipWs rest2 with
                | [] => none
                | c2 :: rest3 =>
                    if c2 = ',' then
                      match parseJ fuel .arrRest rest3 with
                      | some (JsonValue.arr elems, rest4) =>
                          some (JsonValue.arr (v :: elems), rest4)
                      | _ => none
                    else if c2 = ']' then some (JsonValue.arr [v], rest3)
                    else none

/-- Model of `JSON.parse`: parse one value and require only whitespace after
it. -/
def jsonParseModel (s : String) : Option JsonValue :=
  match parseJ (s.data.length + 1) .value s.data with
  | some (v, rest) => if skipWs rest = [] then some v else none
  | none => none

/-- Composite decode performed by `processManualToken`:
`JSON.parse(atob(token))`, the decoded bytes read as characters. -/
def decodeTokenModel (token : String) : Option JsonValue :=
  (atobModel token).bind (fun bytes => jsonParseModel (String.mk (bytes.map Char.ofNat)))

/-- Property lookup `data.type` on a parsed JSON value: a field of an object,
`undefined` (`none`) on anything else. -/
def lookupField (j : JsonValue) (key : String) : Option JsonValue :=
  match j with
  | .obj fields => fields.lookup key
  | _ => none

/-- Coordinator state acted on by the manual-token path: the remote
description set by `setRemoteDescription` and whether an answer has been
produced and broadcast (`handleOffer` does both; descriptor validation by the
RTC stack is modelled as always succeeding). -/
structure TokenCoordinator where
  remoteDescription : Option JsonValue
  sentAnswer : Bool

/-- `handleOffer` (lines 120-127): apply the remote description, create and
send an answer. -/
def handleOfferModel (st : TokenCoordinator) (d : JsonValue) : TokenCoordinator :=
  { st with remoteDescription := some d, sentAnswer := true }

/-- `handleAnswer` (lines 129-132): apply the remote description. -/
def handleAnswerModel (st : TokenCoordinator) (d : JsonValue) : TokenCoordinator :=
  { st with remoteDescription := some d }

/-- Does `data.type` equal `"offer"` or `"answer"`? -/
def isTypeOfferOrAnswer (d : JsonValue) : Bool :=
  match lookupField d "type" with
  | some (.str t) => decide (t = "offer" ∨ t = "answer")
  | _ => false

/-- `processManualToken` (lines 150-161): decode, then dispatch on
`data.type`; only a decode failure reaches the `catch` and throws
`"Invalid Handshake Token"` — a successfully decoded value whose type is
neither `"offer"` nor `"answer"` falls through both `if` branches and the
call returns normally without touching any state. -/
def processManualToken (st : TokenCoordinator) (token : String) :
    Except TransferError TokenCoordinator :=
  match decodeTokenModel token with
  | none => Except.error TransferError.invalidToken
  | some data =>
      match lookupField data "type" with
      | some (JsonValue.str t) =>
          if t = "offer" then Except.ok (handleOfferModel st data)
          else if t = "answer" then Except.ok (handleAnswerModel st data)
          else Except.ok st
      | _ => Except.ok st

/-- CLAIM C2 (counterexample): the token `"eyJ0eXBlIjoicGluZyJ9"` is valid
base64 of the JSON object with `type` field `"ping"` — it decodes, its type is
unrecognized, and yet `processManualToken` returns normally with the state
unchanged instead of failing with InvalidToken. -/
theorem unrecognized_type_not_rejected :
    decodeTokenModel "eyJ0eXBlIjoicGluZyJ9" =
      some (JsonValue.obj [("type", JsonValue.str "ping")]) ∧
    processManualToken { remoteDescription := none, sentAnswer := false }
        "eyJ0eXBlIjoicGluZyJ9" =
      Except.ok { remoteDescription := none, sentAnswer := false } := by
  constructor
  · rfl
  · rfl

/-- CLAIM C2 (amended): `processManualToken` fails with InvalidToken exactly
when the base64-then-JSON decode fails (in which case nothing has been
mutated, so the coordinator state is unchanged); a token that decodes to a
value whose `type` is neither `"offer"` nor `"answer"` is silently accepted
with the state returned unchanged, not rejected. -/
theorem processManualToken_spec (st : TokenCoordinator) (token : String) :
    (processManualToken st token = Except.error TransferError.invalidToken ↔
      decodeTokenModel token = none) ∧
    (∀ d, decodeTokenModel token = some d → isTypeOfferOrAnswer d = false →
      processManualToken st token = Except.ok st) := by
  cases hdec : decodeTokenModel token with
  | none =>
      refine ⟨?_, ?_⟩
      · have hP : processManualToken st token = Except.error TransferError.invalidToken := by
          unfold processManualToken
          rw [hdec]
        rw [hP]
        simp
      · intro d hd htype
        exact Option.noConfusion hd
  | some data =>
      have hP : processManualToken st token =
          (match lookupField data "type" with
           | some (JsonValue.str t) =>
               if t = "offer" then Except.ok (handleOfferModel st data)
               else if t = "answer" then Except.ok (handleAnswerModel st data)
               else Except.ok st
           | _ => Except.ok st) := by
        unfold processManualToken
        rw [hdec]
      cases hl : lookupField data "type" with
      | none =>
          have hP2 : processManualToken st token = Except.ok st := by rw [hP, hl]
          refine ⟨?_, ?_⟩
          · rw [hP2]
            simp [hdec]
          · intro d hd htype
            rw [hP2]
      | some v =>
          cases v with
          | str t =>
              by_cases h1 : t = "offer"
              · have hP2 : processManualToken st token =
                    Except.ok (handleOfferModel st data) := by
                  rw [hP, hl]
                  simp [h1]
                refine ⟨?_, ?_⟩
                · rw [hP2]
                  simp [hdec]
                · intro d hd htype
                  rw [(Option.some.inj hd).symm] at htype
                  unfold isTypeOfferOrAnswer at htype
                  rw [hl] at htype
                  simp [h1] at htype
              · by_cases h2 : t = "answer"
                · have hP2 : processManualToken st token =
                      Except.ok (handleAnswerModel st data) := by
                    rw [hP, hl]
                    simp [h1, h2]
                  refine ⟨?_, ?_⟩
                  · rw [hP2]
                    simp [hdec]
                  · intro d hd htype
                    rw [(Option.some.inj hd).symm] at htype
                    unfold isTypeOfferOrAnswer at htype
                    rw [hl] at htype
                    simp [h2] at htype
                · have hP2 : processManualToken st token = Except.ok st := by
                    rw [hP, hl]
                    simp [h1, h2]
                  refine ⟨?_, ?_⟩
                  · rw [hP2]
                    simp [hdec]
                  · intro d hd htype
                    rw [hP2]
          | num n =>
              have hP2 : processManualToken st token = Except.ok st := by rw [hP, hl]
              exact ⟨by rw [hP2]; simp [hdec], fun d hd htype => by rw [hP2]⟩
          | bool b =>
              have hP2 : processManualToken st token = Except.ok st := by rw [hP, hl]
              exact ⟨by rw [hP2]; simp [hdec], fun d hd htype => by rw [hP2]⟩
          | null =>
              have hP2 : processManualToken st token = Except.ok st := by rw [hP, hl]
              exact ⟨by rw [hP2]; simp [hdec], fun d hd htype => by rw [hP2]⟩
          | arr es =>
              have hP2 : processManualToken st token = Except.ok st := by rw [hP, hl]
              exact ⟨by rw [hP2]; simp [hdec], fun d hd htype => by rw [hP2]⟩
          | obj fs =>
              have hP2 : processManualToken st token = Except.ok st := by rw [hP, hl]
              exact ⟨by rw [hP2]; simp [hdec], fun d hd htype => by rw [hP2]⟩

/-- CLAIM C2 (witness): the spec scenario — `importToken("not-base64!!")`
fails with InvalidToken (the `!` characters are outside the base64
alphabet). -/
theorem processManualToken_spec_witness :
    processManualToken { remoteDescription := none, sentAnswer := false }
        "not-base64!!" =
      Except.error TransferError.invalidToken :=
  (processManualToken_spec { remoteDescription := none, sentAnswer := false }
    "not-base64!!").1.mpr rfl

end OrbitTransfer
